import Mathlib

/-!
Verification of the GPU state-caching layer of the Magnum repository
(`src/Magnum/GL/Implementation/RendererState.cpp`), shallowly embedded in Lean.

The embedding models the desktop-GL build (no `MAGNUM_TARGET_GLES`, no
`MAGNUM_TARGET_GLES2`, no `MAGNUM_TARGET_WEBGL`) as the primary configuration,
plus the OpenGL ES 2 (non-WebGL) variant of the pixel-storage apply where the
row-length capability pin is live, and the OpenGL ES 3 (non-WebGL) resolution
of the `minSampleShading` entry point.

Driver calls issued by the code are reified as a list of `GLCall` values in the
order the source issues them; extension-usage marks are reified as a list of
`ExtName` values.
-/

/-- Modelled from the spec: the disengaged sentinel of
`RendererState::PixelStorage` is declared in `RendererState.h`, which is not
part of the provided sources. Per the spec it is a reserved numeric value
outside the valid domain, "e.g. a negative number for fields that are only
ever non-negative"; we use -1. -/
def DisengagedValue : Int := -1

/-- The `Magnum::Vector3i` type as used by the state cache: three integers. -/
structure Vector3i where
  x : Int
  y : Int
  z : Int
deriving DecidableEq

/-- The zero vector, `Vector3i{}` in the source. -/
def Vector3i.zero : Vector3i := ⟨0, 0, 0⟩

/-- The requested pixel-transfer configuration, `Magnum::PixelStorage`:
alignment, row length, image height and a three-axis skip offset. The
compressed variant, `CompressedPixelStorage`, carries additional block-size
members, but the apply functions never read them (the block properties are
passed as separate arguments), so they are not modelled. -/
structure MagnumPixelStorage where
  alignment : Int
  rowLength : Int
  imageHeight : Int
  skip : Vector3i
deriving DecidableEq

/-- The default-constructed `Magnum::PixelStorage{}`: alignment 4, everything
else zero (these are the OpenGL defaults). -/
def MagnumPixelStorage.default : MagnumPixelStorage := ⟨4, 0, 0, Vector3i.zero⟩

/-- The `glPixelStorei` parameter names used by the pixel-transfer applies.
Each constructor stands for the `GL_UNPACK_*`/`GL_PACK_*` pair selected by the
`isUnpack` ternary in the source. -/
inductive PSParam
  | alignment
  | rowLength
  | imageHeight
  | skipPixels
  | skipRows
  | skipImages
  | compressedBlockWidth
  | compressedBlockHeight
  | compressedBlockDepth
  | compressedBlockSize
deriving DecidableEq

/-- Whether a parameter belongs to the compressed-only group
(`GL_*_COMPRESSED_BLOCK_*`). -/
def PSParam.isCompressed : PSParam → Bool
  | .compressedBlockWidth => true
  | .compressedBlockHeight => true
  | .compressedBlockDepth => true
  | .compressedBlockSize => true
  | _ => false

/-- A driver call issued by the state cache: either
`glPixelStorei(pname, value)` (with the pack/unpack direction recorded
separately, matching the `isUnpack ? GL_UNPACK_… : GL_PACK_…` ternaries), or
`glEnable(cap)`. -/
inductive GLCall
  | pixelStorei (param : PSParam) (isUnpack : Bool) (value : Int)
  | enable (cap : Int)
deriving DecidableEq

/-- The driver-state slot a call writes: `glPixelStorei` calls are keyed by
the (parameter, direction) pair, `glEnable` by the capability. Two calls with
the same key write the same underlying driver state variable. -/
def GLCall.stateKey : GLCall → (PSParam × Bool) ⊕ Int
  | .pixelStorei p u _ => .inl (p, u)
  | .enable c => .inr c

/-- Whether a call is one of the four compressed-only `glPixelStorei` calls. -/
def GLCall.isCompressedParam : GLCall → Bool
  | .pixelStorei p _ _ => p.isCompressed
  | .enable _ => false

/-- The cached pixel-transfer block, `RendererState::PixelStorage`, desktop-GL
field set: alignment, row length, image height, skip, compressed block size
and compressed block data size, plus the two capability-pin values
`disengagedRowLength` and `disengagedBlockSize` assigned by the
`RendererState` constructor. -/
structure PixelStorage where
  alignment : Int
  rowLength : Int
  imageHeight : Int
  skip : Vector3i
  compressedBlockSize : Vector3i
  compressedBlockDataSize : Int
  disengagedRowLength : Int
  disengagedBlockSize : Int
deriving DecidableEq

/-- The `RendererState::PixelStorage` default constructor combined with the
pin assignments done by the `RendererState` constructor: the cached values
start at the OpenGL defaults (alignment 4, everything else 0), and the two
pin values are DisengagedValue on fully-capable contexts or 0 where the
corresponding capability is missing. -/
def PixelStorage.mk0 (dRowLength dBlockSize : Int) : PixelStorage :=
  { alignment := 4
    rowLength := 0
    imageHeight := 0
    skip := Vector3i.zero
    compressedBlockSize := Vector3i.zero
    compressedBlockDataSize := 0
    disengagedRowLength := dRowLength
    disengagedBlockSize := dBlockSize }

/-- The `RendererState::PixelStorage::reset()` member: every cached field goes
back to the disengaged sentinel, except that row length resets to
`disengagedRowLength` and the compressed-block fields reset to
`disengagedBlockSize` (which are 0 instead of the sentinel on
capability-pinned contexts). -/
def PixelStorage.reset (s : PixelStorage) : PixelStorage :=
  { s with
    alignment := DisengagedValue
    rowLength := s.disengagedRowLength
    imageHeight := DisengagedValue
    skip := ⟨DisengagedValue, DisengagedValue, DisengagedValue⟩
    compressedBlockSize := ⟨s.disengagedBlockSize, s.disengagedBlockSize, s.disengagedBlockSize⟩
    compressedBlockDataSize := s.disengagedBlockSize }

/-- One cached-field update step, the pattern repeated for every field in
`applyPixelStorageInternal` and `applyCompressedPixelStorageInternal`:
`if(state.f == DisengagedValue || state.f != requested) glPixelStorei(pname, state.f = requested);`.
Returns the new cached value and the calls issued (one or none). -/
def applyField (cached requested : Int) (p : PSParam) (isUnpack : Bool) :
    Int × List GLCall :=
  if cached = DisengagedValue ∨ cached ≠ requested then
    (requested, [GLCall.pixelStorei p isUnpack requested])
  else
    (cached, [])

/-- The body of `RendererState::applyPixelStorageInternal` on the desktop-GL
configuration, acting on the direction-selected block: six independent
diff-and-set steps in declared order (alignment, row length, image height,
skip pixels, skip rows, skip images). -/
def PixelStorage.applyPlain (state : PixelStorage) (storage : MagnumPixelStorage)
    (isUnpack : Bool) : PixelStorage × List GLCall :=
  let a := applyField state.alignment storage.alignment .alignment isUnpack
  let r := applyField state.rowLength storage.rowLength .rowLength isUnpack
  let ih := applyField state.imageHeight storage.imageHeight .imageHeight isUnpack
  let sx := applyField state.skip.x storage.skip.x .skipPixels isUnpack
  let sy := applyField state.skip.y storage.skip.y .skipRows isUnpack
  let sz := applyField state.skip.z storage.skip.z .skipImages isUnpack
  ({ state with
      alignment := a.1
      rowLength := r.1
      imageHeight := ih.1
      skip := ⟨sx.1, sy.1, sz.1⟩ },
   a.2 ++ r.2 ++ ih.2 ++ sx.2 ++ sy.2 ++ sz.2)

/-- The compressed-only tail of `applyCompressedPixelStorageInternal` on
desktop GL: the whole-block short-circuit (requested skip, row length and
image height at their defaults AND the cached compressed-block fields all
zero issues nothing), otherwise four diff-and-set steps for block width,
height, depth and data size against the separately-passed block properties. -/
def PixelStorage.applyCompressedSection (state : PixelStorage)
    (storage : MagnumPixelStorage) (blockSize : Vector3i) (blockDataSize : Int)
    (isUnpack : Bool) : PixelStorage × List GLCall :=
  if ¬(storage.skip = Vector3i.zero ∧ storage.rowLength = 0 ∧
       storage.imageHeight = 0 ∧ state.compressedBlockSize = Vector3i.zero ∧
       state.compressedBlockDataSize = 0) then
    let w := applyField state.compressedBlockSize.x blockSize.x .compressedBlockWidth isUnpack
    let h := applyField state.compressedBlockSize.y blockSize.y .compressedBlockHeight isUnpack
    let d := applyField state.compressedBlockSize.z blockSize.z .compressedBlockDepth isUnpack
    let ds := applyField state.compressedBlockDataSize blockDataSize .compressedBlockSize isUnpack
    ({ state with
        compressedBlockSize := ⟨w.1, h.1, d.1⟩
        compressedBlockDataSize := ds.1 },
     w.2 ++ h.2 ++ d.2 ++ ds.2)
  else (state, [])

/-- The whole per-block effect of `applyCompressedPixelStorageInternal` after
the internal assertion: the nested plain apply followed by the compressed-only
section, calls concatenated in source order. -/
def PixelStorage.applyCompressedBody (state : PixelStorage)
    (storage : MagnumPixelStorage) (blockSize : Vector3i) (blockDataSize : Int)
    (isUnpack : Bool) : PixelStorage × List GLCall :=
  let p := state.applyPlain storage isUnpack
  let c := p.1.applyCompressedSection storage blockSize blockDataSize isUnpack
  (c.1, p.2 ++ c.2)

/-- Extensions whose usage the `RendererState` constructor can record in the
`extensions` array. -/
inductive ExtName
  | NV_depth_buffer_float
  | ARB_ES2_compatibility
  | ARB_robustness
  | OES_sample_shading
deriving DecidableEq

/-- The concrete entry point bound to `clearDepthImplementation` on desktop. -/
inductive ClearDepthImpl
  | glClearDepthdNV
  | glClearDepth
deriving DecidableEq

/-- The concrete entry point bound to `depthRangeImplementation` on desktop. -/
inductive DepthRangeImpl
  | glDepthRangedNV
  | glDepthRange
deriving DecidableEq

/-- The concrete entry point bound to `clearDepthfImplementation` on desktop. -/
inductive ClearDepthfImpl
  | clearDepthfImplementationNV
  | glClearDepthf
  | clearDepthfImplementationDefault
deriving DecidableEq

/-- The concrete entry point bound to `depthRangefImplementation` on desktop. -/
inductive DepthRangefImpl
  | depthRangefImplementationNV
  | glDepthRangef
  | depthRangefImplementationDefault
deriving DecidableEq

/-- The concrete entry point bound to `graphicsResetStatusImplementation` on
desktop. -/
inductive GraphicsResetStatusImpl
  | glGetGraphicsResetStatusARB
  | graphicsResetStatusImplementationDefault
deriving DecidableEq

/-- The concrete entry point bound to `lineWidthRangeImplementation`. -/
inductive LineWidthRangeImpl
  | lineWidthRangeImplementationMesaForwardCompatible
  | lineWidthRangeImplementationDefault
deriving DecidableEq

/-- The concrete entry point bound to `minSampleShadingImplementation`: the
core version-gated `glMinSampleShading`, the `OES_sample_shading` extension
entry point, or null when neither is available (ES3 below 3.2 without the
extension). -/
inductive MinSampleShadingImpl
  | glMinSampleShading
  | glMinSampleShadingOES
  | null
deriving DecidableEq

/-- The concrete entry points bound to the indexed enable/disable, color
mask, blend function and blend equation family: the core version-gated ones,
the EXT ones, or null. On desktop the core ones are assigned
unconditionally. -/
inductive IndexedImpl
  | core
  | ext
  | null
deriving DecidableEq

/-- The Capability Registry as queried by the desktop-GL `RendererState`
constructor: one immutable boolean per extension, driver and flag query the
constructor performs. -/
structure DesktopContext where
  nvDepthBufferFloat : Bool
  arbES2Compatibility : Bool
  arbRobustness : Bool
  arbCompressedTexturePixelStorage : Bool
  mesaDriver : Bool
  forwardCompatible : Bool
  mesaForwardCompatibleLineWidthWorkaroundDisabled : Bool
  coreProfile : Bool
deriving DecidableEq

/-- The `RendererState` aggregate on desktop GL: the resolved entry points
plus the two direction-cached pixel-storage blocks. The
`resetNotificationStrategy` member is a plain default-constructed enum with
no resolution logic and is omitted. -/
structure RendererState where
  clearDepthImplementation : ClearDepthImpl
  depthRangeImplementation : DepthRangeImpl
  clearDepthfImplementation : ClearDepthfImpl
  depthRangefImplementation : DepthRangefImpl
  graphicsResetStatusImplementation : GraphicsResetStatusImpl
  lineWidthRangeImplementation : LineWidthRangeImpl
  minSampleShadingImplementation : MinSampleShadingImpl
  patchParameteriCore : Bool
  enableiImplementation : IndexedImpl
  unpackPixelStorage : PixelStorage
  packPixelStorage : PixelStorage
deriving DecidableEq

/-- The desktop-GL `RendererState` constructor: resolves every entry point
from the Capability Registry, records the used extensions in declaration
order, assigns the capability pins of both pixel-storage blocks, and — on
non-core-profile contexts only — issues the one immediate driver call
`glEnable(GL_POINT_SPRITE)` (0x8861). Returns the constructed state, the
recorded extensions and the issued driver calls. -/
def makeRendererState (c : DesktopContext) :
    RendererState × List ExtName × List GLCall :=
  let depth :
      (ClearDepthImpl × DepthRangeImpl × ClearDepthfImpl × DepthRangefImpl) ×
        List ExtName :=
    if c.nvDepthBufferFloat then
      ((.glClearDepthdNV, .glDepthRangedNV, .clearDepthfImplementationNV,
        .depthRangefImplementationNV), [ExtName.NV_depth_buffer_float])
    else if c.arbES2Compatibility then
      ((.glClearDepth, .glDepthRange, .glClearDepthf, .glDepthRangef),
       [ExtName.ARB_ES2_compatibility])
    else
      ((.glClearDepth, .glDepthRange, .clearDepthfImplementationDefault,
        .depthRangefImplementationDefault), [])
  let reset : GraphicsResetStatusImpl × List ExtName :=
    if c.arbRobustness then
      (.glGetGraphicsResetStatusARB, [ExtName.ARB_robustness])
    else (.graphicsResetStatusImplementationDefault, [])
  let lineWidth : LineWidthRangeImpl :=
    if c.mesaDriver ∧ c.forwardCompatible ∧
       ¬c.mesaForwardCompatibleLineWidthWorkaroundDisabled then
      .lineWidthRangeImplementationMesaForwardCompatible
    else .lineWidthRangeImplementationDefault
  let dBlockSize : Int :=
    if c.arbCompressedTexturePixelStorage then DisengagedValue else 0
  ({ clearDepthImplementation := depth.1.1
     depthRangeImplementation := depth.1.2.1
     clearDepthfImplementation := depth.1.2.2.1
     depthRangefImplementation := depth.1.2.2.2
     graphicsResetStatusImplementation := reset.1
     lineWidthRangeImplementation := lineWidth
     minSampleShadingImplementation := .glMinSampleShading
     patchParameteriCore := true
     enableiImplementation := .core
     unpackPixelStorage := PixelStorage.mk0 DisengagedValue dBlockSize
     packPixelStorage := PixelStorage.mk0 DisengagedValue dBlockSize },
   depth.2 ++ reset.2,
   if ¬c.coreProfile then [GLCall.enable 0x8861] else [])

/-- The OpenGL ES 3 (non-WebGL) resolution of `minSampleShadingImplementation`:
the core version-gated `glMinSampleShading` when ES 3.2 is supported, else the
`OES_sample_shading` entry point (recorded in the extension usage), else
null. -/
def resolveMinSampleShadingES3 (versionGLES320 oesSampleShading : Bool) :
    MinSampleShadingImpl × List ExtName :=
  if versionGLES320 then (.glMinSampleShading, [])
  else if oesSampleShading then
    (.glMinSampleShadingOES, [ExtName.OES_sample_shading])
  else (.null, [])

/-- The `RendererState::applyPixelStorageInternal` member on desktop GL:
selects the direction block (`isUnpack ? unpackPixelStorage :
packPixelStorage`), diffs and updates it, and issues the corresponding
calls. -/
def RendererState.applyPixelStorageInternal (rs : RendererState)
    (storage : MagnumPixelStorage) (isUnpack : Bool) :
    RendererState × List GLCall :=
  if isUnpack then
    let r := rs.unpackPixelStorage.applyPlain storage isUnpack
    ({ rs with unpackPixelStorage := r.1 }, r.2)
  else
    let r := rs.packPixelStorage.applyPlain storage isUnpack
    ({ rs with packPixelStorage := r.1 }, r.2)

/-- The overall effect of `RendererState::applyCompressedPixelStorageInternal`
on desktop GL past the internal assertion: nested plain apply plus the
compressed-only section on the direction-selected block. -/
def RendererState.compressedApplyResult (rs : RendererState)
    (storage : MagnumPixelStorage) (blockSize : Vector3i) (blockDataSize : Int)
    (isUnpack : Bool) : RendererState × List GLCall :=
  if isUnpack then
    let r := rs.unpackPixelStorage.applyCompressedBody storage blockSize
      blockDataSize isUnpack
    ({ rs with unpackPixelStorage := r.1 }, r.2)
  else
    let r := rs.packPixelStorage.applyCompressedBody storage blockSize
      blockDataSize isUnpack
    ({ rs with packPixelStorage := r.1 }, r.2)

/-- The `RendererState::applyCompressedPixelStorageInternal` member on desktop
GL. It first checks `CORRADE_INTERNAL_ASSERT(blockSize != Vector3i{} &&
blockDataSize != 0)`; a failed internal assertion aborts the program,
modelled as `none`. Otherwise it performs the nested plain apply and the
compressed-only section. -/
def RendererState.applyCompressedPixelStorageInternal (rs : RendererState)
    (storage : MagnumPixelStorage) (blockSize : Vector3i) (blockDataSize : Int)
    (isUnpack : Bool) : Option (RendererState × List GLCall) :=
  if blockSize = Vector3i.zero ∨ blockDataSize = 0 then none
  else some (rs.compressedApplyResult storage blockSize blockDataSize isUnpack)

/-- The direction-selected pixel-storage block of a renderer state. -/
def RendererState.pixelStorageFor (rs : RendererState) (isUnpack : Bool) :
    PixelStorage :=
  if isUnpack then rs.unpackPixelStorage else rs.packPixelStorage

/-- The cached pixel-transfer block on the OpenGL ES 2 (non-WebGL) build: only
alignment and row length are tracked (image height, skip and the compressed
fields are compiled out), plus the `disengagedRowLength` pin. -/
structure ES2PixelStorage where
  alignment : Int
  rowLength : Int
  disengagedRowLength : Int
deriving DecidableEq

/-- The ES 2 block as default-constructed, with the pin value assigned by the
constructor: `DisengagedValue` when the `EXT_unpack_subimage` (unpack) or
`NV_pack_subimage` (pack) extension is present, 0 otherwise. -/
def ES2PixelStorage.mk0 (dRowLength : Int) : ES2PixelStorage :=
  ⟨4, 0, dRowLength⟩

/-- The pin value computed by the ES 2 `RendererState` constructor for a
direction whose subimage extension support is given. -/
def es2DisengagedRowLength (subimageExtensionSupported : Bool) : Int :=
  if subimageExtensionSupported then DisengagedValue else 0

/-- The ES 2 `reset()`: alignment to the sentinel, row length to the pin. -/
def ES2PixelStorage.reset (s : ES2PixelStorage) : ES2PixelStorage :=
  { s with alignment := DisengagedValue, rowLength := s.disengagedRowLength }

/-- The capability-violation diagnostic `applyPixelStorageInternal` reports on
ES 2 when a non-default image height is requested. -/
def es2ImageHeightMessage : String :=
  "GL: non-default PixelStorage::imageHeight() is not supported in OpenGL ES 2"

/-- The body of `applyPixelStorageInternal` on the OpenGL ES 2 (non-WebGL)
build: the alignment and row-length diff-and-set steps (row length going
through the `GL_UNPACK_ROW_LENGTH_EXT`/`GL_PACK_ROW_LENGTH_NV` parameter),
followed by the `CORRADE_ASSERT(!storage.imageHeight(), …)` capability check;
the skip section is compiled out. Returns the new block, the calls issued and
the capability violations reported. -/
def ES2PixelStorage.applyPixelStorage (state : ES2PixelStorage)
    (storage : MagnumPixelStorage) (isUnpack : Bool) :
    ES2PixelStorage × List GLCall × List String :=
  let a := applyField state.alignment storage.alignment .alignment isUnpack
  let r := applyField state.rowLength storage.rowLength .rowLength isUnpack
  let violations := if storage.imageHeight ≠ 0 then [es2ImageHeightMessage] else []
  ({ state with alignment := a.1, rowLength := r.1 }, a.2 ++ r.2, violations)

/-- The list of row-length calls among a call list. -/
def rowLengthCalls (calls : List GLCall) : List GLCall :=
  calls.filter (fun cl =>
    decide (cl.stateKey = .inl (.rowLength, true)) ||
    decide (cl.stateKey = .inl (.rowLength, false)))


/-- Per-field requested values are non-negative, as produced by the calling
layer (GL pixel-store values are never negative, so they never collide with
the reserved sentinel). -/
def StorageNonneg (storage : MagnumPixelStorage) : Prop :=
  0 ≤ storage.alignment ∧ 0 ≤ storage.rowLength ∧ 0 ≤ storage.imageHeight ∧
  0 ≤ storage.skip.x ∧ 0 ≤ storage.skip.y ∧ 0 ≤ storage.skip.z

instance (storage : MagnumPixelStorage) : Decidable (StorageNonneg storage) := by
  unfold StorageNonneg; infer_instance

theorem applyField_fst (c r : Int) (p : PSParam) (u : Bool) :
    (applyField c r p u).1 = r := by
  unfold applyField
  split_ifs with h
  · rfl
  · push_neg at h
    exact h.2

theorem applyField_skip {c r : Int} (p : PSParam) (u : Bool)
    (h1 : c ≠ DisengagedValue) (h2 : c = r) :
    applyField c r p u = (c, []) := by
  unfold applyField
  rw [if_neg]
  push_neg
  exact ⟨h1, h2⟩

theorem applyField_self {r : Int} (p : PSParam) (u : Bool) (h : 0 ≤ r) :
    applyField r r p u = (r, []) := by
  apply applyField_skip p u _ rfl
  unfold DisengagedValue
  omega

theorem applyField_fire {c r : Int} (p : PSParam) (u : Bool)
    (h : c = DisengagedValue ∨ c ≠ r) :
    applyField c r p u = (r, [GLCall.pixelStorei p u r]) := by
  unfold applyField
  rw [if_pos h]

theorem applyField_mem {c r : Int} {p : PSParam} {u : Bool} {cl : GLCall}
    (h : cl ∈ (applyField c r p u).2) : cl = GLCall.pixelStorei p u r := by
  unfold applyField at h
  split_ifs at h <;> simp_all

theorem applyPlain_fst (s : PixelStorage) (st : MagnumPixelStorage) (u : Bool) :
    (s.applyPlain st u).1 =
      { s with alignment := st.alignment, rowLength := st.rowLength,
               imageHeight := st.imageHeight, skip := st.skip } := by
  unfold PixelStorage.applyPlain
  simp only [applyField_fst]

theorem applyPlain_self (s : PixelStorage) (st : MagnumPixelStorage) (u : Bool)
    (nn : StorageNonneg st)
    (ha : s.alignment = st.alignment) (hr : s.rowLength = st.rowLength)
    (hi : s.imageHeight = st.imageHeight) (hs : s.skip = st.skip) :
    s.applyPlain st u = (s, []) := by
  obtain ⟨n1, n2, n3, n4, n5, n6⟩ := nn
  obtain ⟨sa, sr, si, ⟨sx, sy, sz⟩, scbs, scbds, sdrl, sdbs⟩ := s
  obtain ⟨ta, tr, ti, ⟨tx, ty, tz⟩⟩ := st
  simp only at ha hr hi hs n1 n2 n3 n4 n5 n6
  obtain ⟨hx, hy, hz⟩ := Vector3i.mk.injEq .. ▸ hs
  subst ha hr hi hx hy hz
  unfold PixelStorage.applyPlain
  simp only
  rw [applyField_self _ _ n1, applyField_self _ _ n2, applyField_self _ _ n3,
      applyField_self _ _ n4, applyField_self _ _ n5, applyField_self _ _ n6]
  rfl

theorem applyPlain_snd (s : PixelStorage) (st : MagnumPixelStorage) (u : Bool) :
    (s.applyPlain st u).2 =
      (applyField s.alignment st.alignment .alignment u).2 ++
      (applyField s.rowLength st.rowLength .rowLength u).2 ++
      (applyField s.imageHeight st.imageHeight .imageHeight u).2 ++
      (applyField s.skip.x st.skip.x .skipPixels u).2 ++
      (applyField s.skip.y st.skip.y .skipRows u).2 ++
      (applyField s.skip.z st.skip.z .skipImages u).2 := rfl

theorem applyPlain_mem {s : PixelStorage} {st : MagnumPixelStorage} {u : Bool}
    {cl : GLCall} (h : cl ∈ (s.applyPlain st u).2) :
    ∃ p v, cl = GLCall.pixelStorei p u v ∧ p.isCompressed = false := by
  rw [applyPlain_snd] at h
  simp only [List.mem_append] at h
  rcases h with ((((h | h) | h) | h) | h) | h
  all_goals exact ⟨_, _, applyField_mem h, rfl⟩

theorem applyPlain_keys_nodup (s : PixelStorage) (st : MagnumPixelStorage)
    (u : Bool) : ((s.applyPlain st u).2.map GLCall.stateKey).Nodup := by
  rw [applyPlain_snd]
  unfold applyField
  split_ifs <;> simp [GLCall.stateKey]

theorem applyCompressedSection_of_defaults {state : PixelStorage}
    {storage : MagnumPixelStorage} (bs : Vector3i) (bds : Int) (u : Bool)
    (h : storage.skip = Vector3i.zero ∧ storage.rowLength = 0 ∧
         storage.imageHeight = 0 ∧ state.compressedBlockSize = Vector3i.zero ∧
         state.compressedBlockDataSize = 0) :
    state.applyCompressedSection storage bs bds u = (state, []) := by
  unfold PixelStorage.applyCompressedSection
  rw [if_neg (not_not_intro h)]

theorem applyCompressedSection_fst_of_enter {state : PixelStorage}
    {storage : MagnumPixelStorage} (bs : Vector3i) (bds : Int) (u : Bool)
    (h : ¬(storage.skip = Vector3i.zero ∧ storage.rowLength = 0 ∧
           storage.imageHeight = 0 ∧ state.compressedBlockSize = Vector3i.zero ∧
           state.compressedBlockDataSize = 0)) :
    (state.applyCompressedSection storage bs bds u).1 =
      { state with compressedBlockSize := bs, compressedBlockDataSize := bds } := by
  unfold PixelStorage.applyCompressedSection
  rw [if_pos h]
  simp only [applyField_fst]

theorem applyCompressedSection_self {state : PixelStorage}
    {storage : MagnumPixelStorage} {bs : Vector3i} {bds : Int} {u : Bool}
    (hcbs : state.compressedBlockSize = bs)
    (hcbds : state.compressedBlockDataSize = bds)
    (hbs : 0 ≤ bs.x ∧ 0 ≤ bs.y ∧ 0 ≤ bs.z) (hbds : 0 ≤ bds) (hne : bds ≠ 0) :
    state.applyCompressedSection storage bs bds u = (state, []) := by
  obtain ⟨b1, b2, b3⟩ := hbs
  unfold PixelStorage.applyCompressedSection
  rw [if_pos]
  · obtain ⟨sa, sr, si, ssk, ⟨cx, cy, cz⟩, scbds, sdrl, sdbs⟩ := state
    obtain ⟨bx, by_, bz⟩ := bs
    simp only at hcbs hcbds
    obtain ⟨h1, h2, h3⟩ := Vector3i.mk.injEq .. ▸ hcbs
    subst h1 h2 h3 hcbds
    rw [applyField_self _ _ b1, applyField_self _ _ b2, applyField_self _ _ b3,
        applyField_self _ _ hbds]
    rfl
  · intro hcon
    exact hne (hcbds ▸ hcon.2.2.2.2)

theorem applyCompressedSection_snd (state : PixelStorage)
    (storage : MagnumPixelStorage) (bs : Vector3i) (bds : Int) (u : Bool) :
    (state.applyCompressedSection storage bs bds u).2 =
      if ¬(storage.skip = Vector3i.zero ∧ storage.rowLength = 0 ∧
           storage.imageHeight = 0 ∧ state.compressedBlockSize = Vector3i.zero ∧
           state.compressedBlockDataSize = 0) then
        (applyField state.compressedBlockSize.x bs.x .compressedBlockWidth u).2 ++
        (applyField state.compressedBlockSize.y bs.y .compressedBlockHeight u).2 ++
        (applyField state.compressedBlockSize.z bs.z .compressedBlockDepth u).2 ++
        (applyField state.compressedBlockDataSize bds .compressedBlockSize u).2
      else [] := by
  unfold PixelStorage.applyCompressedSection
  split_ifs <;> rfl

theorem applyCompressedSection_mem {state : PixelStorage}
    {storage : MagnumPixelStorage} {bs : Vector3i} {bds : Int} {u : Bool}
    {cl : GLCall}
    (h : cl ∈ (state.applyCompressedSection storage bs bds u).2) :
    ∃ p v, cl = GLCall.pixelStorei p u v ∧ p.isCompressed = true := by
  rw [applyCompressedSection_snd] at h
  split_ifs at h with hc
  · simp at h
  · simp only [List.mem_append] at h
    rcases h with ((h | h) | h) | h
    all_goals exact ⟨_, _, applyField_mem h, rfl⟩

theorem applyCompressedSection_keys_nodup (state : PixelStorage)
    (storage : MagnumPixelStorage) (bs : Vector3i) (bds : Int) (u : Bool) :
    ((state.applyCompressedSection storage bs bds u).2.map GLCall.stateKey).Nodup := by
  unfold PixelStorage.applyCompressedSection applyField
  split_ifs <;> simp [GLCall.stateKey]

theorem nodup_map_append {α β : Type} (k : α → β) (l1 l2 : List α)
    (h1 : (l1.map k).Nodup) (h2 : (l2.map k).Nodup)
    (hd : ∀ a ∈ l1, ∀ b ∈ l2, k a ≠ k b) :
    (((l1 ++ l2).map k)).Nodup := by
  rw [List.map_append]
  refine List.Nodup.append h1 h2 ?_
  intro x hx1 hx2
  simp only [List.mem_map] at hx1 hx2
  obtain ⟨a, ha, rfl⟩ := hx1
  obtain ⟨b, hb, hkb⟩ := hx2
  exact hd a ha b hb hkb.symm

theorem applyCompressedBody_eq (s : PixelStorage) (st : MagnumPixelStorage)
    (bs : Vector3i) (bds : Int) (u : Bool) :
    s.applyCompressedBody st bs bds u =
      (((s.applyPlain st u).1.applyCompressedSection st bs bds u).1,
       (s.applyPlain st u).2 ++
         ((s.applyPlain st u).1.applyCompressedSection st bs bds u).2) := rfl

theorem applyCompressedBody_keys_nodup (s : PixelStorage)
    (st : MagnumPixelStorage) (bs : Vector3i) (bds : Int) (u : Bool) :
    ((s.applyCompressedBody st bs bds u).2.map GLCall.stateKey).Nodup := by
  rw [applyCompressedBody_eq]
  refine nodup_map_append _ _ _ (applyPlain_keys_nodup ..)
    (applyCompressedSection_keys_nodup ..) ?_
  intro a ha b hb
  obtain ⟨p, v, rfl, hp⟩ := applyPlain_mem ha
  obtain ⟨q, w, rfl, hq⟩ := applyCompressedSection_mem hb
  simp only [GLCall.stateKey, ne_eq, Sum.inl.injEq, Prod.mk.injEq]
  rintro ⟨rfl, -⟩
  rw [hp] at hq
  exact Bool.false_ne_true hq

theorem applyCompressedBody_fst (s : PixelStorage) (st : MagnumPixelStorage)
    (bs : Vector3i) (bds : Int) (u : Bool) :
    (s.applyCompressedBody st bs bds u).1 =
      ((s.applyPlain st u).1.applyCompressedSection st bs bds u).1 := rfl

theorem applyCompressedBody_self (s : PixelStorage) (st : MagnumPixelStorage)
    (bs : Vector3i) (bds : Int) (u : Bool) (nn : StorageNonneg st)
    (hbs : 0 ≤ bs.x ∧ 0 ≤ bs.y ∧ 0 ≤ bs.z) (hbds : 0 ≤ bds) (hne : bds ≠ 0) :
    ((s.applyCompressedBody st bs bds u).1).applyCompressedBody st bs bds u =
      ((s.applyCompressedBody st bs bds u).1, []) := by
  have hpf := applyPlain_fst s st u
  by_cases hC : st.skip = Vector3i.zero ∧ st.rowLength = 0 ∧ st.imageHeight = 0 ∧
      (s.applyPlain st u).1.compressedBlockSize = Vector3i.zero ∧
      (s.applyPlain st u).1.compressedBlockDataSize = 0
  · have hsec := applyCompressedSection_of_defaults bs bds u hC
    have hs1 : (s.applyCompressedBody st bs bds u).1 = (s.applyPlain st u).1 := by
      rw [applyCompressedBody_fst, hsec]
    rw [hs1]
    have hplain : (s.applyPlain st u).1.applyPlain st u = ((s.applyPlain st u).1, []) :=
      applyPlain_self _ _ _ nn (by rw [hpf]) (by rw [hpf]) (by rw [hpf]) (by rw [hpf])
    simp [applyCompressedBody_eq, hplain, hsec]
  · have hsec1 := applyCompressedSection_fst_of_enter bs bds u hC
    set s1 : PixelStorage := { (s.applyPlain st u).1 with
      compressedBlockSize := bs
      compressedBlockDataSize := bds } with hs1def
    have hs1 : (s.applyCompressedBody st bs bds u).1 = s1 := by
      rw [applyCompressedBody_fst, hsec1]
    rw [hs1]
    have hplain1 : s1.applyPlain st u = (s1, []) :=
      applyPlain_self _ _ _ nn (by rw [hs1def, hpf]) (by rw [hs1def, hpf])
        (by rw [hs1def, hpf]) (by rw [hs1def, hpf])
    have hsec2 : s1.applyCompressedSection st bs bds u = (s1, []) :=
      applyCompressedSection_self (by rw [hs1def]) (by rw [hs1def]) hbs hbds hne
    simp [applyCompressedBody_eq, hplain1, hsec2]

theorem applyPlain_self_after (s : PixelStorage) (st : MagnumPixelStorage)
    (u u2 : Bool) (nn : StorageNonneg st) :
    ((s.applyPlain st u).1).applyPlain st u2 = ((s.applyPlain st u).1, []) :=
  applyPlain_self _ _ _ nn (by rw [applyPlain_fst]) (by rw [applyPlain_fst])
    (by rw [applyPlain_fst]) (by rw [applyPlain_fst])

/-- A fully-capable desktop core-profile context: every queried extension
present, no Mesa driver quirks. -/
def desktopFull : DesktopContext :=
  ⟨false, true, true, true, false, false, false, true⟩

/-- The renderer state as constructed on `desktopFull`. -/
def freshRS : RendererState := (makeRendererState desktopFull).1

/-- A desktop context on which the vendor `NV_depth_buffer_float` extension is
available (the core `glClearDepth`/`glDepthRange` entry points are always
available on desktop). -/
def contextWithNV : DesktopContext :=
  ⟨true, true, true, true, false, false, false, true⟩

/-- An unpinned pixel-storage block as constructed on a fully-capable desktop
context (both pins at the sentinel). -/
def freshUnpinned : PixelStorage :=
  PixelStorage.mk0 DisengagedValue DisengagedValue

/-- C2: on a freshly constructed State Block the cached values start at the GL
defaults (alignment 4, everything else 0), not at the disengaged sentinel, so
applying the all-default configuration {alignment=4, rowLength=0,
imageHeight=0, skip=(0,0,0)} issues zero driver calls — contradicting the
claim that the first apply on a freshly constructed block issues exactly one
call per tracked field (4 or 6 calls), regardless of the requested values. -/
theorem c2_counterexample :
    ((PixelStorage.mk0 DisengagedValue DisengagedValue).applyPlain
      MagnumPixelStorage.default true).2 = [] := by decide

/-- C2 (amended): it is a freshly reset State Block, not a freshly constructed
one, whose first apply issues exactly one driver call per field — six calls on
desktop (alignment, row length, image height, skip x, skip y, skip z), in
declared order with the requested values, regardless of whether the requested
values equal the natural zero defaults. -/
theorem c2_first_apply_after_reset (st : MagnumPixelStorage) (u : Bool) :
    ((freshUnpinned.reset).applyPlain st u).2 =
      [GLCall.pixelStorei .alignment u st.alignment,
       GLCall.pixelStorei .rowLength u st.rowLength,
       GLCall.pixelStorei .imageHeight u st.imageHeight,
       GLCall.pixelStorei .skipPixels u st.skip.x,
       GLCall.pixelStorei .skipRows u st.skip.y,
       GLCall.pixelStorei .skipImages u st.skip.z] := by
  rw [applyPlain_snd]
  simp only [freshUnpinned, PixelStorage.mk0, PixelStorage.reset]
  rw [applyField_fire _ _ (Or.inl rfl), applyField_fire _ _ (Or.inl rfl),
      applyField_fire _ _ (Or.inl rfl), applyField_fire _ _ (Or.inl rfl),
      applyField_fire _ _ (Or.inl rfl), applyField_fire _ _ (Or.inl rfl)]
  rfl

/-- C8: the two direction blocks are independently cached. An apply (plain or
compressed) invoked with the unpack direction leaves the pack block untouched,
and one invoked with the pack direction leaves the unpack block untouched. -/
theorem c8_direction_independence (rs : RendererState)
    (st : MagnumPixelStorage) (bs : Vector3i) (bds : Int) :
    ((rs.applyPixelStorageInternal st true).1.packPixelStorage =
      rs.packPixelStorage) ∧
    ((rs.applyPixelStorageInternal st false).1.unpackPixelStorage =
      rs.unpackPixelStorage) ∧
    ((rs.compressedApplyResult st bs bds true).1.packPixelStorage =
      rs.packPixelStorage) ∧
    ((rs.compressedApplyResult st bs bds false).1.unpackPixelStorage =
      rs.unpackPixelStorage) :=
  ⟨rfl, rfl, rfl, rfl⟩

/-- C9 (amended): on the desktop-GL path the compressed apply fails its
internal assertion exactly when the supplied block size is the zero vector
(all three components zero) or the supplied block byte size is zero; whenever
the block size is not the zero vector and the byte size is non-zero, the
assertion branch is unreachable and the apply proceeds normally. -/
theorem c9_internal_assert_condition (rs : RendererState)
    (st : MagnumPixelStorage) (bs : Vector3i) (bds : Int) (u : Bool) :
    rs.applyCompressedPixelStorageInternal st bs bds u = none ↔
      (bs = Vector3i.zero ∨ bds = 0) := by
  unfold RendererState.applyCompressedPixelStorageInternal
  split_ifs with h <;> simp [h]

/-- C9 counterexample: a block size with a zero component, (4,0,0), together
with a non-zero byte size does not trip the assertion — the apply proceeds —
refuting the claim that the assertion fails whenever the block size has a zero
component. -/
theorem c9_counterexample :
    (⟨4, 0, 0⟩ : Vector3i).y = 0 ∧
    (freshRS.applyCompressedPixelStorageInternal MagnumPixelStorage.default
      ⟨4, 0, 0⟩ 8 true).isSome = true := by decide

/-- C10: on desktop (non-ES) targets, construction of the renderer state
issues exactly one immediate driver call, `glEnable(GL_POINT_SPRITE)` (0x8861),
when the context is not a core profile, and no driver call at all on a
core-profile context. -/
theorem c10_construction_point_sprite (c : DesktopContext) :
    (makeRendererState c).2.2 =
      if c.coreProfile then [] else [GLCall.enable 0x8861] := by
  unfold makeRendererState
  by_cases h : c.coreProfile <;> simp [h]

/-- C1: applying the same requested configuration twice in a row, in the same
direction, issues each underlying driver state-set call at most once across
both invocations. The second invocation issues zero driver calls (for the
compressed variant it returns the unchanged state and an empty call list),
and the calls of the first invocation all target pairwise-distinct driver
state slots. -/
theorem c1_idempotence (rs : RendererState) (st : MagnumPixelStorage)
    (bs : Vector3i) (bds : Int) (u : Bool) (nn : StorageNonneg st)
    (hbs : 0 ≤ bs.x ∧ 0 ≤ bs.y ∧ 0 ≤ bs.z) (hbds : 0 ≤ bds)
    (hbsz : bs ≠ Vector3i.zero) (hne : bds ≠ 0) :
    (((rs.applyPixelStorageInternal st u).1).applyPixelStorageInternal st u).2
      = [] ∧
    ((rs.applyPixelStorageInternal st u).2.map GLCall.stateKey).Nodup ∧
    rs.applyCompressedPixelStorageInternal st bs bds u =
      some (rs.compressedApplyResult st bs bds u) ∧
    ((rs.compressedApplyResult st bs bds u).1).applyCompressedPixelStorageInternal
      st bs bds u = some ((rs.compressedApplyResult st bs bds u).1, []) ∧
    ((rs.compressedApplyResult st bs bds u).2.map GLCall.stateKey).Nodup := by
  have hnone : ¬(bs = Vector3i.zero ∨ bds = 0) := by
    push_neg
    exact ⟨hbsz, hne⟩
  refine ⟨?_, ?_, ?_, ?_, ?_⟩
  · cases u
    · simp [RendererState.applyPixelStorageInternal,
        applyPlain_self_after rs.packPixelStorage st false false nn]
    · simp [RendererState.applyPixelStorageInternal,
        applyPlain_self_after rs.unpackPixelStorage st true true nn]
  · cases u
    · simpa [RendererState.applyPixelStorageInternal] using
        applyPlain_keys_nodup rs.packPixelStorage st false
    · simpa [RendererState.applyPixelStorageInternal] using
        applyPlain_keys_nodup rs.unpackPixelStorage st true
  · unfold RendererState.applyCompressedPixelStorageInternal
    rw [if_neg hnone]
  · unfold RendererState.applyCompressedPixelStorageInternal
    rw [if_neg hnone]
    cases u
    · have hb := applyCompressedBody_self rs.packPixelStorage st bs bds false
        nn hbs hbds hne
      simp [RendererState.compressedApplyResult, hb]
    · have hb := applyCompressedBody_self rs.unpackPixelStorage st bs bds true
        nn hbs hbds hne
      simp [RendererState.compressedApplyResult, hb]
  · cases u
    · simpa [RendererState.compressedApplyResult] using
        applyCompressedBody_keys_nodup rs.packPixelStorage st bs bds false
    · simpa [RendererState.compressedApplyResult] using
        applyCompressedBody_keys_nodup rs.unpackPixelStorage st bs bds true

/-- C1 witness: the idempotence theorem evaluated on the fully-capable desktop
state with the default configuration and block properties (4,4,1)/16. -/
theorem c1_witness :
    (((freshRS.applyPixelStorageInternal MagnumPixelStorage.default true).1).applyPixelStorageInternal
      MagnumPixelStorage.default true).2 = [] ∧
    ((freshRS.applyPixelStorageInternal MagnumPixelStorage.default true).2.map
      GLCall.stateKey).Nodup ∧
    freshRS.applyCompressedPixelStorageInternal MagnumPixelStorage.default
      ⟨4, 4, 1⟩ 16 true =
      some (freshRS.compressedApplyResult MagnumPixelStorage.default
        ⟨4, 4, 1⟩ 16 true) ∧
    ((freshRS.compressedApplyResult MagnumPixelStorage.default
      ⟨4, 4, 1⟩ 16 true).1).applyCompressedPixelStorageInternal
      MagnumPixelStorage.default ⟨4, 4, 1⟩ 16 true =
      some ((freshRS.compressedApplyResult MagnumPixelStorage.default
        ⟨4, 4, 1⟩ 16 true).1, []) ∧
    ((freshRS.compressedApplyResult MagnumPixelStorage.default
      ⟨4, 4, 1⟩ 16 true).2.map GLCall.stateKey).Nodup :=
  c1_idempotence freshRS MagnumPixelStorage.default ⟨4, 4, 1⟩ 16 true
    (by decide) (by decide) (by decide) (by decide) (by decide)

theorem applyCompressedBody_short (b : PixelStorage) (st : MagnumPixelStorage)
    (bs : Vector3i) (bds : Int) (u : Bool)
    (hskip : st.skip = Vector3i.zero) (hrl : st.rowLength = 0)
    (hih : st.imageHeight = 0)
    (hcbs : b.compressedBlockSize = Vector3i.zero)
    (hcbds : b.compressedBlockDataSize = 0) :
    b.applyCompressedBody st bs bds u = b.applyPlain st u := by
  have hC : st.skip = Vector3i.zero ∧ st.rowLength = 0 ∧ st.imageHeight = 0 ∧
      (b.applyPlain st u).1.compressedBlockSize = Vector3i.zero ∧
      (b.applyPlain st u).1.compressedBlockDataSize = 0 := by
    refine ⟨hskip, hrl, hih, ?_, ?_⟩
    · rw [applyPlain_fst]
      exact hcbs
    · rw [applyPlain_fst]
      exact hcbds
  rw [applyCompressedBody_eq, applyCompressedSection_of_defaults bs bds u hC]
  simp

/-- C5: when the requested skip, row length and image height are all at their
zero defaults and the cached compressed-block size and byte-size fields of
the direction block are all zero, the compressed apply issues none of the
four compressed-only driver calls and leaves the cached compressed-block
fields at zero, even though the supplied block size and byte size are
non-default (they must be, to pass the internal assertion). -/
theorem c5_compressed_short_circuit (rs : RendererState)
    (st : MagnumPixelStorage) (bs : Vector3i) (bds : Int) (u : Bool)
    (hskip : st.skip = Vector3i.zero) (hrl : st.rowLength = 0)
    (hih : st.imageHeight = 0)
    (hcbs : (rs.pixelStorageFor u).compressedBlockSize = Vector3i.zero)
    (hcbds : (rs.pixelStorageFor u).compressedBlockDataSize = 0)
    (hbsz : bs ≠ Vector3i.zero) (hne : bds ≠ 0) :
    rs.applyCompressedPixelStorageInternal st bs bds u =
      some (rs.compressedApplyResult st bs bds u) ∧
    (rs.compressedApplyResult st bs bds u).2.filter GLCall.isCompressedParam
      = [] ∧
    ((rs.compressedApplyResult st bs bds u).1.pixelStorageFor
      u).compressedBlockSize = Vector3i.zero ∧
    ((rs.compressedApplyResult st bs bds u).1.pixelStorageFor
      u).compressedBlockDataSize = 0 := by
  have hnone : ¬(bs = Vector3i.zero ∨ bds = 0) := by
    push_neg
    exact ⟨hbsz, hne⟩
  refine ⟨?_, ?_, ?_, ?_⟩
  · unfold RendererState.applyCompressedPixelStorageInternal
    rw [if_neg hnone]
  · cases u
    · have hbody := applyCompressedBody_short rs.packPixelStorage st bs bds
        false hskip hrl hih hcbs hcbds
      simp only [RendererState.compressedApplyResult, Bool.false_eq_true,
        if_false, hbody]
      rw [List.filter_eq_nil_iff]
      intro cl hcl
      obtain ⟨p, v, rfl, hp⟩ := applyPlain_mem hcl
      simp [GLCall.isCompressedParam, hp]
    · have hbody := applyCompressedBody_short rs.unpackPixelStorage st bs bds
        true hskip hrl hih hcbs hcbds
      simp only [RendererState.compressedApplyResult, if_true, hbody]
      rw [List.filter_eq_nil_iff]
      intro cl hcl
      obtain ⟨p, v, rfl, hp⟩ := applyPlain_mem hcl
      simp [GLCall.isCompressedParam, hp]
  · cases u
    · have hbody := applyCompressedBody_short rs.packPixelStorage st bs bds
        false hskip hrl hih hcbs hcbds
      simp only [RendererState.compressedApplyResult, Bool.false_eq_true,
        if_false, hbody, RendererState.pixelStorageFor]
      rw [applyPlain_fst]
      exact hcbs
    · have hbody := applyCompressedBody_short rs.unpackPixelStorage st bs bds
        true hskip hrl hih hcbs hcbds
      simp only [RendererState.compressedApplyResult, if_true, hbody,
        RendererState.pixelStorageFor]
      rw [applyPlain_fst]
      exact hcbs
  · cases u
    · have hbody := applyCompressedBody_short rs.packPixelStorage st bs bds
        false hskip hrl hih hcbs hcbds
      simp only [RendererState.compressedApplyResult, Bool.false_eq_true,
        if_false, hbody, RendererState.pixelStorageFor]
      rw [applyPlain_fst]
      exact hcbds
    · have hbody := applyCompressedBody_short rs.unpackPixelStorage st bs bds
        true hskip hrl hih hcbs hcbds
      simp only [RendererState.compressedApplyResult, if_true, hbody,
        RendererState.pixelStorageFor]
      rw [applyPlain_fst]
      exact hcbds

/-- C5 witness: the short-circuit theorem evaluated on the fully-capable
desktop state (whose cached compressed-block fields start at zero) with the
default configuration and non-default block properties (4,4,1)/16. -/
theorem c5_witness :
    freshRS.applyCompressedPixelStorageInternal MagnumPixelStorage.default
      ⟨4, 4, 1⟩ 16 true =
      some (freshRS.compressedApplyResult MagnumPixelStorage.default
        ⟨4, 4, 1⟩ 16 true) ∧
    (freshRS.compressedApplyResult MagnumPixelStorage.default
      ⟨4, 4, 1⟩ 16 true).2.filter GLCall.isCompressedParam = [] ∧
    ((freshRS.compressedApplyResult MagnumPixelStorage.default
      ⟨4, 4, 1⟩ 16 true).1.pixelStorageFor true).compressedBlockSize =
      Vector3i.zero ∧
    ((freshRS.compressedApplyResult MagnumPixelStorage.default
      ⟨4, 4, 1⟩ 16 true).1.pixelStorageFor true).compressedBlockDataSize = 0 :=
  c5_compressed_short_circuit freshRS MagnumPixelStorage.default ⟨4, 4, 1⟩ 16
    true (by decide) (by decide) (by decide) (by decide) (by decide)
    (by decide) (by decide)

/-- The six scalar fields diffed by the plain (non-compressed) pixel-storage
apply, in declared order. -/
inductive PlainField
  | alignment
  | rowLength
  | imageHeight
  | skipX
  | skipY
  | skipZ
deriving DecidableEq, Fintype

/-- The `glPixelStorei` parameter corresponding to a plain field. -/
def PlainField.param : PlainField → PSParam
  | .alignment => .alignment
  | .rowLength => .rowLength
  | .imageHeight => .imageHeight
  | .skipX => .skipPixels
  | .skipY => .skipRows
  | .skipZ => .skipImages

/-- The cached value of a plain field. -/
def PixelStorage.plainVal (s : PixelStorage) : PlainField → Int
  | .alignment => s.alignment
  | .rowLength => s.rowLength
  | .imageHeight => s.imageHeight
  | .skipX => s.skip.x
  | .skipY => s.skip.y
  | .skipZ => s.skip.z

/-- The requested value of a plain field. -/
def MagnumPixelStorage.plainVal (st : MagnumPixelStorage) : PlainField → Int
  | .alignment => st.alignment
  | .rowLength => st.rowLength
  | .imageHeight => st.imageHeight
  | .skipX => st.skip.x
  | .skipY => st.skip.y
  | .skipZ => st.skip.z

/-- Overwrite a single plain field of a cached block, leaving the other five
plain fields, the four compressed-block fields and the two pins unchanged. -/
def PixelStorage.setPlain (s : PixelStorage) : PlainField → Int → PixelStorage
  | .alignment, v => { s with alignment := v }
  | .rowLength, v => { s with rowLength := v }
  | .imageHeight, v => { s with imageHeight := v }
  | .skipX, v => { s with skip := ⟨v, s.skip.y, s.skip.z⟩ }
  | .skipY, v => { s with skip := ⟨s.skip.x, v, s.skip.z⟩ }
  | .skipZ, v => { s with skip := ⟨s.skip.x, s.skip.y, v⟩ }

theorem Vector3i.ext3 (v w : Vector3i) (hx : v.x = w.x) (hy : v.y = w.y)
    (hz : v.z = w.z) : v = w := by
  cases v
  cases w
  simp_all

/-- C7: from a fully engaged cached block (no plain field disengaged), an
apply whose requested configuration differs from the cached values in exactly
one plain field issues exactly one driver call — for that field, with the
requested value — and the resulting cached block is the old one with only
that field overwritten (`setPlain` leaves the other five plain fields, the
four compressed-block fields and the pins unchanged). -/
theorem c7_per_field_independence (s : PixelStorage) (st : MagnumPixelStorage)
    (u : Bool) (f : PlainField)
    (heng : ∀ j, s.plainVal j ≠ DisengagedValue)
    (hagree : ∀ j, j ≠ f → s.plainVal j = st.plainVal j)
    (hdiff : s.plainVal f ≠ st.plainVal f) :
    (s.applyPlain st u).2 = [GLCall.pixelStorei f.param u (st.plainVal f)] ∧
    (s.applyPlain st u).1 = s.setPlain f (st.plainVal f) := by
  cases f
  case alignment =>
    have n0 : s.alignment ≠ DisengagedValue := heng .alignment
    have n1 : s.rowLength ≠ DisengagedValue := heng .rowLength
    have n2 : s.imageHeight ≠ DisengagedValue := heng .imageHeight
    have n3 : s.skip.x ≠ DisengagedValue := heng .skipX
    have n4 : s.skip.y ≠ DisengagedValue := heng .skipY
    have n5 : s.skip.z ≠ DisengagedValue := heng .skipZ
    have d : s.alignment ≠ st.alignment := hdiff
    have e1 : s.rowLength = st.rowLength := hagree .rowLength (by decide)
    have e2 : s.imageHeight = st.imageHeight := hagree .imageHeight (by decide)
    have e3 : s.skip.x = st.skip.x := hagree .skipX (by decide)
    have e4 : s.skip.y = st.skip.y := hagree .skipY (by decide)
    have e5 : s.skip.z = st.skip.z := hagree .skipZ (by decide)
    constructor
    · rw [applyPlain_snd,
        applyField_fire _ _ (Or.inr d),
        applyField_skip _ _ n1 e1,
        applyField_skip _ _ n2 e2,
        applyField_skip _ _ n3 e3,
        applyField_skip _ _ n4 e4,
        applyField_skip _ _ n5 e5]
      rfl
    · rw [applyPlain_fst]
      have hsk : st.skip = s.skip := (Vector3i.ext3 _ _ e3 e4 e5).symm
      rw [← e1, ← e2, hsk]
      rfl
  case rowLength =>
    have n0 : s.alignment ≠ DisengagedValue := heng .alignment
    have n1 : s.rowLength ≠ DisengagedValue := heng .rowLength
    have n2 : s.imageHeight ≠ DisengagedValue := heng .imageHeight
    have n3 : s.skip.x ≠ DisengagedValue := heng .skipX
    have n4 : s.skip.y ≠ DisengagedValue := heng .skipY
    have n5 : s.skip.z ≠ DisengagedValue := heng .skipZ
    have d : s.rowLength ≠ st.rowLength := hdiff
    have e0 : s.alignment = st.alignment := hagree .alignment (by decide)
    have e2 : s.imageHeight = st.imageHeight := hagree .imageHeight (by decide)
    have e3 : s.skip.x = st.skip.x := hagree .skipX (by decide)
    have e4 : s.skip.y = st.skip.y := hagree .skipY (by decide)
    have e5 : s.skip.z = st.skip.z := hagree .skipZ (by decide)
    constructor
    · rw [applyPlain_snd,
        applyField_skip _ _ n0 e0,
        applyField_fire _ _ (Or.inr d),
        applyField_skip _ _ n2 e2,
        applyField_skip _ _ n3 e3,
        applyField_skip _ _ n4 e4,
        applyField_skip _ _ n5 e5]
      rfl
    · rw [applyPlain_fst]
      have hsk : st.skip = s.skip := (Vector3i.ext3 _ _ e3 e4 e5).symm
      rw [← e0, ← e2, hsk]
      rfl
  case imageHeight =>
    have n0 : s.alignment ≠ DisengagedValue := heng .alignment
    have n1 : s.rowLength ≠ DisengagedValue := heng .rowLength
    have n2 : s.imageHeight ≠ DisengagedValue := heng .imageHeight
    have n3 : s.skip.x ≠ DisengagedValue := heng .skipX
    have n4 : s.skip.y ≠ DisengagedValue := heng .skipY
    have n5 : s.skip.z ≠ DisengagedValue := heng .skipZ
    have d : s.imageHeight ≠ st.imageHeight := hdiff
    have e0 : s.alignment = st.alignment := hagree .alignment (by decide)
    have e1 : s.rowLength = st.rowLength := hagree .rowLength (by decide)
    have e3 : s.skip.x = st.skip.x := hagree .skipX (by decide)
    have e4 : s.skip.y = st.skip.y := hagree .skipY (by decide)
    have e5 : s.skip.z = st.skip.z := hagree .skipZ (by decide)
    constructor
    · rw [applyPlain_snd,
        applyField_skip _ _ n0 e0,
        applyField_skip _ _ n1 e1,
        applyField_fire _ _ (Or.inr d),
        applyField_skip _ _ n3 e3,
        applyField_skip _ _ n4 e4,
        applyField_skip _ _ n5 e5]
      rfl
    · rw [applyPlain_fst]
      have hsk : st.skip = s.skip := (Vector3i.ext3 _ _ e3 e4 e5).symm
      rw [← e0, ← e1, hsk]
      rfl
  case skipX =>
    have n0 : s.alignment ≠ DisengagedValue := heng .alignment
    have n1 : s.rowLength ≠ DisengagedValue := heng .rowLength
    have n2 : s.imageHeight ≠ DisengagedValue := heng .imageHeight
    have n3 : s.skip.x ≠ DisengagedValue := heng .skipX
    have n4 : s.skip.y ≠ DisengagedValue := heng .skipY
    have n5 : s.skip.z ≠ DisengagedValue := heng .skipZ
    have d : s.skip.x ≠ st.skip.x := hdiff
    have e0 : s.alignment = st.alignment := hagree .alignment (by decide)
    have e1 : s.rowLength = st.rowLength := hagree .rowLength (by decide)
    have e2 : s.imageHeight = st.imageHeight := hagree .imageHeight (by decide)
    have e4 : s.skip.y = st.skip.y := hagree .skipY (by decide)
    have e5 : s.skip.z = st.skip.z := hagree .skipZ (by decide)
    constructor
    · rw [applyPlain_snd,
        applyField_skip _ _ n0 e0,
        applyField_skip _ _ n1 e1,
        applyField_skip _ _ n2 e2,
        applyField_fire _ _ (Or.inr d),
        applyField_skip _ _ n4 e4,
        applyField_skip _ _ n5 e5]
      rfl
    · rw [applyPlain_fst]
      rw [← e0, ← e1, ← e2]
      have hsk : st.skip = ⟨st.skip.x, st.skip.y, st.skip.z⟩ := rfl
      rw [hsk, ← e4, ← e5]
      rfl
  case skipY =>
    have n0 : s.alignment ≠ DisengagedValue := heng .alignment
    have n1 : s.rowLength ≠ DisengagedValue := heng .rowLength
    have n2 : s.imageHeight ≠ DisengagedValue := heng .imageHeight
    have n3 : s.skip.x ≠ DisengagedValue := heng .skipX
    have n4 : s.skip.y ≠ DisengagedValue := heng .skipY
    have n5 : s.skip.z ≠ DisengagedValue := heng .skipZ
    have d : s.skip.y ≠ st.skip.y := hdiff
    have e0 : s.alignment = st.alignment := hagree .alignment (by decide)
    have e1 : s.rowLength = st.rowLength := hagree .rowLength (by decide)
    have e2 : s.imageHeight = st.imageHeight := hagree .imageHeight (by decide)
    have e3 : s.skip.x = st.skip.x := hagree .skipX (by decide)
    have e5 : s.skip.z = st.skip.z := hagree .skipZ (by decide)
    constructor
    · rw [applyPlain_snd,
        applyField_skip _ _ n0 e0,
        applyField_skip _ _ n1 e1,
        applyField_skip _ _ n2 e2,
        applyField_skip _ _ n3 e3,
        applyField_fire _ _ (Or.inr d),
        applyField_skip _ _ n5 e5]
      rfl
    · rw [applyPlain_fst]
      rw [← e0, ← e1, ← e2]
      have hsk : st.skip = ⟨st.skip.x, st.skip.y, st.skip.z⟩ := rfl
      rw [hsk, ← e3, ← e5]
      rfl
  case skipZ =>
    have n0 : s.alignment ≠ DisengagedValue := heng .alignment
    have n1 : s.rowLength ≠ DisengagedValue := heng .rowLength
    have n2 : s.imageHeight ≠ DisengagedValue := heng .imageHeight
    have n3 : s.skip.x ≠ DisengagedValue := heng .skipX
    have n4 : s.skip.y ≠ DisengagedValue := heng .skipY
    have n5 : s.skip.z ≠ DisengagedValue := heng .skipZ
    have d : s.skip.z ≠ st.skip.z := hdiff
    have e0 : s.alignment = st.alignment := hagree .alignment (by decide)
    have e1 : s.rowLength = st.rowLength := hagree .rowLength (by decide)
    have e2 : s.imageHeight = st.imageHeight := hagree .imageHeight (by decide)
    have e3 : s.skip.x = st.skip.x := hagree .skipX (by decide)
    have e4 : s.skip.y = st.skip.y := hagree .skipY (by decide)
    constructor
    · rw [applyPlain_snd,
        applyField_skip _ _ n0 e0,
        applyField_skip _ _ n1 e1,
        applyField_skip _ _ n2 e2,
        applyField_skip _ _ n3 e3,
        applyField_skip _ _ n4 e4,
        applyField_fire _ _ (Or.inr d)]
      rfl
    · rw [applyPlain_fst]
      rw [← e0, ← e1, ← e2]
      have hsk : st.skip = ⟨st.skip.x, st.skip.y, st.skip.z⟩ := rfl
      rw [hsk, ← e3, ← e4]
      rfl

/-- A fully engaged cached block: every plain field holds the GL default
value (as after applying the default configuration), no field disengaged. -/
def engagedBlock : PixelStorage :=
  ⟨4, 0, 0, Vector3i.zero, Vector3i.zero, 0, DisengagedValue, DisengagedValue⟩

/-- C7 witness: changing only the row length (0 to 4) on the engaged default
block issues exactly the one row-length call and only updates that field. -/
theorem c7_witness :
    (engagedBlock.applyPlain ⟨4, 4, 0, Vector3i.zero⟩ true).2 =
      [GLCall.pixelStorei PSParam.rowLength true 4] ∧
    (engagedBlock.applyPlain ⟨4, 4, 0, Vector3i.zero⟩ true).1 =
      engagedBlock.setPlain PlainField.rowLength 4 :=
  c7_per_field_independence engagedBlock ⟨4, 4, 0, Vector3i.zero⟩ true
    PlainField.rowLength (by decide) (by decide) (by decide)

/-- C4 counterexample: on a desktop context where the vendor
`NV_depth_buffer_float` extension is available alongside the always-available
core `glClearDepth` entry point, the constructor resolves the depth-clear
operation to the vendor entry point `glClearDepthdNV` and records the vendor
extension as used — refuting the claim that the version-gated entry point is
always selected and the vendor extension left unmarked. -/
theorem c4_counterexample :
    ¬((makeRendererState contextWithNV).1.clearDepthImplementation =
        ClearDepthImpl.glClearDepth ∧
      ExtName.NV_depth_buffer_float ∉ (makeRendererState contextWithNV).2.1) := by
  decide

/-- C4 (amended): the preference depends on the operation. For the
`minSampleShading` resolution on ES 3 the core version-gated entry point is
preferred over the `OES_sample_shading` extension and the extension is not
marked used, exactly as the claim states; but for the depth clear/range
operations on desktop the vendor `NV_depth_buffer_float` extension is
preferred over the always-available core entry points and is marked used. -/
theorem c4_resolver_priority (c : DesktopContext) (v o : Bool)
    (h1 : c.nvDepthBufferFloat = true) (h2 : v = true) :
    (makeRendererState c).1.clearDepthImplementation =
      ClearDepthImpl.glClearDepthdNV ∧
    ExtName.NV_depth_buffer_float ∈ (makeRendererState c).2.1 ∧
    resolveMinSampleShadingES3 v o =
      (MinSampleShadingImpl.glMinSampleShading, []) := by
  subst h2
  unfold makeRendererState resolveMinSampleShadingES3
  simp [h1]

/-- C4 witness: the amended resolver-priority theorem evaluated on the
NV-capable desktop context and an ES 3.2 context. -/
theorem c4_witness :
    (makeRendererState contextWithNV).1.clearDepthImplementation =
      ClearDepthImpl.glClearDepthdNV ∧
    ExtName.NV_depth_buffer_float ∈ (makeRendererState contextWithNV).2.1 ∧
    resolveMinSampleShadingES3 true true =
      (MinSampleShadingImpl.glMinSampleShading, []) :=
  c4_resolver_priority contextWithNV true true rfl rfl

/-- The ES 2 pixel-storage block of a direction whose subimage extension is
missing (row length pinned to 0), after a cache reset. -/
def es2PinnedReset : ES2PixelStorage :=
  (ES2PixelStorage.mk0 (es2DisengagedRowLength false)).reset

/-- C6 counterexample: on the pinned ES 2 block, requesting a non-pinned row
length of 4 does not report a capability violation, does issue the row-length
driver call, and does update the cached value to 4 — refuting the claim that
such a request reports exactly one capability violation, issues zero driver
calls for the field, and leaves the cached state unchanged. -/
theorem c6_counterexample :
    (es2PinnedReset.applyPixelStorage ⟨4, 4, 0, Vector3i.zero⟩ true).2.2 = [] ∧
    rowLengthCalls
      (es2PinnedReset.applyPixelStorage ⟨4, 4, 0, Vector3i.zero⟩ true).2.1 =
      [GLCall.pixelStorei PSParam.rowLength true 4] ∧
    (es2PinnedReset.applyPixelStorage ⟨4, 4, 0, Vector3i.zero⟩ true).1.rowLength
      = 4 := by
  decide

/-- C6 (amended): on a context where row length is pinned to 0 (subimage
extension missing on ES 2), an apply requesting the pinned value 0 issues no
row-length driver call, reports no violation, and keeps the cached value 0;
an apply requesting any other row length is not diagnosed by this layer: it
issues the row-length driver call with the requested value and updates the
cache (the resulting GL error is the driver's own and is treated as a user
error), still reporting no violation. -/
theorem c6_capability_pin (st : MagnumPixelStorage) (u : Bool)
    (hih : st.imageHeight = 0) :
    (es2PinnedReset.applyPixelStorage st u).2.2 = [] ∧
    (st.rowLength = 0 →
      rowLengthCalls (es2PinnedReset.applyPixelStorage st u).2.1 = [] ∧
      (es2PinnedReset.applyPixelStorage st u).1.rowLength = 0) ∧
    (st.rowLength ≠ 0 →
      rowLengthCalls (es2PinnedReset.applyPixelStorage st u).2.1 =
        [GLCall.pixelStorei PSParam.rowLength u st.rowLength] ∧
      (es2PinnedReset.applyPixelStorage st u).1.rowLength = st.rowLength) := by
  obtain ⟨ta, tr, ti, tsk⟩ := st
  simp only at hih
  subst hih
  refine ⟨?_, ?_, ?_⟩
  · simp [ES2PixelStorage.applyPixelStorage]
  · intro h0
    simp only at h0
    subst h0
    cases u <;>
      simp [ES2PixelStorage.applyPixelStorage, es2PinnedReset,
        ES2PixelStorage.mk0, ES2PixelStorage.reset, es2DisengagedRowLength,
        applyField, rowLengthCalls, GLCall.stateKey, DisengagedValue]
  · intro hne
    simp only at hne
    have h2 : ¬((0 : Int) = tr) := fun h => hne h.symm
    cases u <;>
      simp [ES2PixelStorage.applyPixelStorage, es2PinnedReset,
        ES2PixelStorage.mk0, ES2PixelStorage.reset, es2DisengagedRowLength,
        applyField, rowLengthCalls, GLCall.stateKey, DisengagedValue, h2]

/-- C6 witness: the amended capability-pin theorem evaluated on the pinned
ES 2 block at the all-default request (row length 0, the pinned value). -/
theorem c6_witness :
    ((es2PinnedReset.applyPixelStorage ⟨4, 0, 0, Vector3i.zero⟩ true).2.2 = []) ∧
    (((⟨4, 0, 0, Vector3i.zero⟩ : MagnumPixelStorage).rowLength = 0 →
      rowLengthCalls
        (es2PinnedReset.applyPixelStorage ⟨4, 0, 0, Vector3i.zero⟩ true).2.1
        = [] ∧
      (es2PinnedReset.applyPixelStorage
        ⟨4, 0, 0, Vector3i.zero⟩ true).1.rowLength = 0)) ∧
    (((⟨4, 0, 0, Vector3i.zero⟩ : MagnumPixelStorage).rowLength ≠ 0 →
      rowLengthCalls
        (es2PinnedReset.applyPixelStorage ⟨4, 0, 0, Vector3i.zero⟩ true).2.1 =
        [GLCall.pixelStorei PSParam.rowLength true
          (⟨4, 0, 0, Vector3i.zero⟩ : MagnumPixelStorage).rowLength] ∧
      (es2PinnedReset.applyPixelStorage
        ⟨4, 0, 0, Vector3i.zero⟩ true).1.rowLength =
        (⟨4, 0, 0, Vector3i.zero⟩ : MagnumPixelStorage).rowLength)) :=
  c6_capability_pin ⟨4, 0, 0, Vector3i.zero⟩ true rfl

/-- The four compressed-block fields diffed by the compressed apply. -/
inductive CompField
  | blockWidth
  | blockHeight
  | blockDepth
  | blockDataSize
deriving DecidableEq, Fintype

/-- The cached value of a compressed-block field. -/
def PixelStorage.compVal (s : PixelStorage) : CompField → Int
  | .blockWidth => s.compressedBlockSize.x
  | .blockHeight => s.compressedBlockSize.y
  | .blockDepth => s.compressedBlockSize.z
  | .blockDataSize => s.compressedBlockDataSize

/-- The cached value of any tracked field, plain or compressed. -/
def PixelStorage.fieldVal (s : PixelStorage) : PlainField ⊕ CompField → Int
  | .inl f => s.plainVal f
  | .inr f => s.compVal f

/-- One operation on a single pixel-storage block: cache reset, plain apply,
or compressed apply (with the separately-passed block properties). -/
inductive PSOp
  | opReset
  | opApply (storage : MagnumPixelStorage) (isUnpack : Bool)
  | opApplyCompressed (storage : MagnumPixelStorage) (blockSize : Vector3i)
      (blockDataSize : Int) (isUnpack : Bool)
deriving DecidableEq

/-- The state transition of one operation. A compressed apply whose block
properties fail the internal assertion aborts the program; valid traces
(`ValidOp`) never take that branch, which is modelled as a no-op here. -/
def PSOp.step (s : PixelStorage) : PSOp → PixelStorage
  | .opReset => s.reset
  | .opApply st u => (s.applyPlain st u).1
  | .opApplyCompressed st bs bds u =>
      if bs = Vector3i.zero ∨ bds = 0 then s
      else (s.applyCompressedBody st bs bds u).1

/-- Which fields have been written by an apply since the last reset: a reset
clears the record, a plain apply writes all six plain fields, a compressed
apply writes all ten fields. -/
def PSOp.written (w : PlainField ⊕ CompField → Bool) :
    PSOp → (PlainField ⊕ CompField → Bool)
  | .opReset => fun _ => false
  | .opApply _ _ => fun f =>
      match f with
      | .inl _ => true
      | .inr g => w (.inr g)
  | .opApplyCompressed _ _ _ _ => fun _ => true

/-- Run a list of operations on a block, in order. -/
def runOps (s : PixelStorage) (ops : List PSOp) : PixelStorage :=
  ops.foldl PSOp.step s

/-- The written-since-last-reset record after a list of operations, starting
from the given record. -/
def writtenOps (w : PlainField ⊕ CompField → Bool) (ops : List PSOp) :
    PlainField ⊕ CompField → Bool :=
  ops.foldl PSOp.written w

/-- The preconditions under which the calling layer invokes the operations:
requested values are non-negative GL values, and compressed block properties
are non-negative and satisfy the internal assertion. -/
def ValidOp : PSOp → Prop
  | .opReset => True
  | .opApply st _ => StorageNonneg st
  | .opApplyCompressed st bs bds _ =>
      StorageNonneg st ∧ 0 ≤ bs.x ∧ 0 ≤ bs.y ∧ 0 ≤ bs.z ∧
      ¬(bs = Vector3i.zero) ∧ 0 ≤ bds ∧ bds ≠ 0

instance (op : PSOp) : Decidable (ValidOp op) := by
  cases op <;> unfold ValidOp <;> infer_instance

/-- The inductive invariant tying a block to its written-record: a field reads
as the sentinel exactly when it is unwritten, written fields hold
non-negative values, the cached compressed byte size is never zero (so the
compressed whole-block short-circuit can never fire on an unpinned context),
and the pins stay at the sentinel. -/
def InvFields (s : PixelStorage) (w : PlainField ⊕ CompField → Bool) : Prop :=
  (∀ f, s.fieldVal f = DisengagedValue ↔ w f = false) ∧
  (∀ f, w f = true → 0 ≤ s.fieldVal f) ∧
  s.compressedBlockDataSize ≠ 0 ∧
  s.disengagedRowLength = DisengagedValue ∧
  s.disengagedBlockSize = DisengagedValue

theorem inv_step (s : PixelStorage) (w : PlainField ⊕ CompField → Bool)
    (op : PSOp) (hI : InvFields s w) (hop : ValidOp op) :
    InvFields (PSOp.step s op) (PSOp.written w op) := by
  obtain ⟨h1, h2, h3, h4, h5⟩ := hI
  cases op with
  | opReset =>
    refine ⟨?_, ?_, ?_, ?_, ?_⟩
    · intro f
      rcases f with f | f <;> cases f <;>
        simp [PSOp.step, PSOp.written, PixelStorage.reset,
          PixelStorage.fieldVal, PixelStorage.plainVal, PixelStorage.compVal,
          h4, h5]
    · intro f hf
      simp [PSOp.written] at hf
    · simp [PSOp.step, PixelStorage.reset, h5, DisengagedValue]
    · simp [PSOp.step, PixelStorage.reset, h4]
    · simp [PSOp.step, PixelStorage.reset, h5]
  | opApply st u =>
    have hsn : StorageNonneg st := hop
    obtain ⟨n1, n2, n3, n4, n5, n6⟩ := hsn
    refine ⟨?_, ?_, ?_, ?_, ?_⟩
    · intro f
      rcases f with f | f
      · cases f <;>
          simp [PSOp.step, PSOp.written, PixelStorage.fieldVal,
            PixelStorage.plainVal, applyPlain_fst, DisengagedValue] <;>
          omega
      · cases f
        case blockWidth => exact h1 (Sum.inr CompField.blockWidth)
        case blockHeight => exact h1 (Sum.inr CompField.blockHeight)
        case blockDepth => exact h1 (Sum.inr CompField.blockDepth)
        case blockDataSize => exact h1 (Sum.inr CompField.blockDataSize)
    · intro f hf
      rcases f with f | f
      · cases f <;>
          simp [PSOp.step, PixelStorage.fieldVal, PixelStorage.plainVal,
            applyPlain_fst] <;>
          omega
      · cases f
        case blockWidth => exact h2 (Sum.inr CompField.blockWidth) hf
        case blockHeight => exact h2 (Sum.inr CompField.blockHeight) hf
        case blockDepth => exact h2 (Sum.inr CompField.blockDepth) hf
        case blockDataSize => exact h2 (Sum.inr CompField.blockDataSize) hf
    · simpa [PSOp.step, applyPlain_fst] using h3
    · simpa [PSOp.step, applyPlain_fst] using h4
    · simpa [PSOp.step, applyPlain_fst] using h5
  | opApplyCompressed st bs bds u =>
    obtain ⟨hsn, b1, b2, b3, hbsz, hbds, hne⟩ := hop
    obtain ⟨n1, n2, n3, n4, n5, n6⟩ := hsn
    have hcond : ¬(bs = Vector3i.zero ∨ bds = 0) := by
      push_neg
      exact ⟨hbsz, hne⟩
    have hplain1cbds : (s.applyPlain st u).1.compressedBlockDataSize ≠ 0 := by
      rw [applyPlain_fst]
      exact h3
    have hC : ¬(st.skip = Vector3i.zero ∧ st.rowLength = 0 ∧
        st.imageHeight = 0 ∧
        (s.applyPlain st u).1.compressedBlockSize = Vector3i.zero ∧
        (s.applyPlain st u).1.compressedBlockDataSize = 0) := by
      intro hcon
      exact hplain1cbds hcon.2.2.2.2
    have hstep : PSOp.step s (.opApplyCompressed st bs bds u) =
        (s.applyCompressedBody st bs bds u).1 := by
      simp [PSOp.step, hcond]
    have hfst : (s.applyCompressedBody st bs bds u).1 =
        { (s.applyPlain st u).1 with
          compressedBlockSize := bs
          compressedBlockDataSize := bds } := by
      rw [applyCompressedBody_fst, applyCompressedSection_fst_of_enter bs bds u hC]
    rw [hstep, hfst]
    refine ⟨?_, ?_, ?_, ?_, ?_⟩
    · intro f
      rcases f with f | f <;> cases f <;>
        simp [PSOp.written, PixelStorage.fieldVal, PixelStorage.plainVal,
          PixelStorage.compVal, applyPlain_fst, DisengagedValue] <;>
        omega
    · intro f hf
      rcases f with f | f <;> cases f <;>
        simp [PixelStorage.fieldVal, PixelStorage.plainVal,
          PixelStorage.compVal, applyPlain_fst] <;>
        omega
    · simpa using hne
    · simpa [applyPlain_fst] using h4
    · simpa [applyPlain_fst] using h5

theorem inv_run (ops : List PSOp) (s : PixelStorage)
    (w : PlainField ⊕ CompField → Bool) (hI : InvFields s w)
    (hops : ∀ op ∈ ops, ValidOp op) :
    InvFields (runOps s ops) (writtenOps w ops) := by
  induction ops generalizing s w with
  | nil => exact hI
  | cons op rest ih =>
    have hstep := inv_step s w op hI (hops op (List.mem_cons_self op rest))
    exact ih _ _ hstep (fun o ho => hops o (List.mem_cons_of_mem op ho))

/-- C3 (amended): starting from a reset of the unpinned block, after any valid
sequence of resets, plain applies and compressed applies, a field reads as the
disengaged sentinel exactly when no apply has written it since the last reset
(every plain apply writes all six plain fields, every compressed apply writes
all ten fields). On a freshly constructed block, before any reset, the claim
fails: the block holds the engaged GL default values despite never having
been written (see the counterexample). -/
theorem c3_disengaged_iff_unwritten (ops : List PSOp)
    (f : PlainField ⊕ CompField) (hops : ∀ op ∈ ops, ValidOp op) :
    (runOps freshUnpinned.reset ops).fieldVal f = DisengagedValue ↔
      writtenOps (fun _ => false) ops f = false := by
  have hbase : InvFields freshUnpinned.reset (fun _ => false) := by
    refine ⟨?_, ?_, by decide, by decide, by decide⟩
    · intro g
      rcases g with g | g <;> cases g <;>
        simp [freshUnpinned, PixelStorage.mk0, PixelStorage.reset,
          PixelStorage.fieldVal, PixelStorage.plainVal, PixelStorage.compVal]
    · intro g hg
      simp at hg
  exact (inv_run ops _ _ hbase hops).1 f

/-- C3 witness: after the single valid plain apply of the default
configuration following a reset, the alignment field is no longer disengaged
and is recorded as written. -/
theorem c3_witness :
    (runOps freshUnpinned.reset
        [PSOp.opApply ⟨4, 0, 0, Vector3i.zero⟩ true]).fieldVal
      (Sum.inl PlainField.alignment) = DisengagedValue ↔
    writtenOps (fun _ => false)
        [PSOp.opApply ⟨4, 0, 0, Vector3i.zero⟩ true]
      (Sum.inl PlainField.alignment) = false :=
  c3_disengaged_iff_unwritten [PSOp.opApply ⟨4, 0, 0, Vector3i.zero⟩ true]
    (Sum.inl PlainField.alignment) (by decide)

/-- C3 counterexample: a freshly constructed block, with no operation applied
since construction (so no field ever written by an apply and no reset yet),
holds the engaged GL default value 4 in its alignment field rather than the
disengaged sentinel — refuting the claimed equivalence at the
construction point of the operation sequence. -/
theorem c3_counterexample :
    writtenOps (fun _ => false) [] (Sum.inl PlainField.alignment) = false ∧
    (runOps freshUnpinned []).fieldVal (Sum.inl PlainField.alignment) ≠
      DisengagedValue := by
  decide
